import Mathlib

/-!
Shallow embedding of the HumbleBundle Galaxy plugin core (`src/plugin.py`).

Each plugin method becomes a pure Lean function over an explicit
`PluginState`.  Calls to external collaborators (the library resolver, the
remote API, the local install tracker, the browser, the telemetry reporter,
the persistent cache) are modelled by passing their outcomes in as
parameters and by recording the observable action in an `Effect` list, in
the order the Python code performs them.
-/

namespace HB

/-- Local game state, as reported by the external install tracker. -/
inductive GameState
  | notInstalled
  | installed
  | running
deriving DecidableEq, Repr

/-- Cache strategy tiers of the library resolver (`library.Strategy`). -/
inductive Strategy
  | fetch
  | cache
  | optimized
deriving DecidableEq, Repr

/-- Exceptions that external calls may raise, as far as `plugin.py`
distinguishes them: `AuthenticationRequired` is caught specially in the
trove branch of `install_game`; everything else is only caught by the
generic `except Exception` handlers. -/
inductive Exn
  | authenticationRequired
  | keyError
  | runtimeError
  | other
deriving DecidableEq, Repr

/-- An owned product record (`model.game`): the sum of the three variants
`plugin.py` dispatches on, with exactly the fields `install_game` reads. -/
inductive HumbleGame
  | key (machineName humanName keyTypeHumanName keyVal : String)
  | subproduct (machineName : String)
  | trove (machineName : String)
deriving DecidableEq, Repr

/-- A local (installed) game as used by `plugin.py`: an id (= machine
name) and a live state; `run` and `uninstall` are modelled as effects. -/
structure LocalHumbleGame where
  id : String
  state : GameState
deriving DecidableEq, Repr

/-- The `extra` context attached to a `report_problem` call. -/
inductive ReportCtx
  | noCtx
  | gameCtx (g : Option HumbleGame)
  | localGamesCtx (m : List (String × LocalHumbleGame))
deriving DecidableEq, Repr

/-- Observable actions of the plugin, recorded in the order the Python
code performs them. -/
inductive Effect
  | resolveCalled (s : Strategy)
  | removeGame (id : String)
  | addGame (id : String) (g : HumbleGame)
  | updateLocalGameStatus (id : String) (st : GameState)
  | openUrl (url : String)
  | runKeysGui (humanName keyTypeHumanName keyVal : String)
  | reportProblem (ctx : ReportCtx)
  | runGame (id : String)
  | uninstallGame (id : String)
  | refreshCalled
  | findLocalGamesCalled
  | cacheSet (key value : String)
  | pushCache
deriving DecidableEq, Repr

/-- Which background task a `tick` call spawned. -/
inductive TaskSpawn
  | owned
  | statuses
  | installed
deriving DecidableEq, Repr

/-- String-keyed association map lookup (first match wins), modelling a
Python dict read. -/
def lookup {α : Type} (k : String) : List (String × α) → Option α
  | [] => none
  | (k', v) :: rest => if k' = k then some v else lookup k rest

/-- Dict assignment `d[k] = v`: the new binding shadows any old one. -/
def setKey {α : Type} (k : String) (v : α) (l : List (String × α)) :
    List (String × α) :=
  (k, v) :: l.filter (fun p => p.1 ≠ k)

/-- The keys of an association map (`dict.keys()`). -/
def keys {α : Type} (l : List (String × α)) : List String :=
  l.map Prod.fst

/-- Mutable state of a `HumbleBundlePlugin` instance, restricted to the
fields the claims are about. -/
structure PluginState where
  ownedGames : List (String × HumbleGame)
  localGames : List (String × LocalHumbleGame)
  cachedGameStates : List (String × GameState)
  gettingOwnedGames : Bool
  checkOwnedDone : Bool
  checkStatusesDone : Bool
  checkInstalledDone : Bool
  underInstallation : List String
  persistentCache : List (String × String)
deriving Repr

/-- A value passed to `_save_cache`: either a Python `str` or any other
value, which `json.dumps` (modelled by the `dumps` parameter) serializes.
The non-string payload is an opaque token. -/
inductive PyData
  | str (s : String)
  | nonStr (v : Nat)
deriving DecidableEq, Repr

/-- `HumbleBundlePlugin._save_cache`: serialize non-string data, store it,
and push the cache. -/
def saveCache (dumps : Nat → String) (st : PluginState) (key : String)
    (data : PyData) : PluginState × List Effect :=
  let v := match data with
    | .str s => s
    | .nonStr x => dumps x
  ({st with persistentCache := setKey key v st.persistentCache},
   [Effect.cacheSet key v, Effect.pushCache])

/-- `HumbleBundlePlugin.launch_game`: look the id up in `_local_games`;
on `KeyError` report with the full local-games map, else call `run()`. -/
def launchGame (st : PluginState) (gameId : String) : List Effect :=
  match lookup gameId st.localGames with
  | none => [Effect.reportProblem (.localGamesCtx st.localGames)]
  | some _ => [Effect.runGame gameId]

/-- `HumbleBundlePlugin.uninstall_game`: look the id up in `_local_games`;
on `KeyError` report with the full local-games map, else `uninstall()`. -/
def uninstallGame (st : PluginState) (gameId : String) : List Effect :=
  match lookup gameId st.localGames with
  | none => [Effect.reportProblem (.localGamesCtx st.localGames)]
  | some _ => [Effect.uninstallGame gameId]

/-- `HumbleBundlePlugin.get_local_games`.  `hasAppFinder` models the
truthiness of `self._app_finder`; `refreshOk` tells whether the external
`AppFinder.refresh()` call raises; `found` is what
`find_local_games` returns.  Result: new state, effects, returned list. -/
def getLocalGames (st : PluginState) (hasAppFinder : Bool)
    (refreshOk : Bool) (found : List LocalHumbleGame) :
    PluginState × List Effect × List LocalHumbleGame :=
  if !hasAppFinder || st.ownedGames.isEmpty then
    (st, [], [])
  else if !refreshOk then
    (st, [Effect.refreshCalled, Effect.reportProblem .noCtx], [])
  else
    let newLocals :=
      found.foldl (fun m g => setKey g.id g m) st.localGames
    ({st with localGames := newLocals},
     [Effect.refreshCalled, Effect.findLocalGamesCalled],
     newLocals.map Prod.snd)

/-- `HumbleBundlePlugin.get_owned_games`: sets the `_getting_owned_games`
event, resolves under `FETCH`, clears the event and returns the games.
`resolveResult` is the outcome of the awaited resolver call; when it
raises, the exception propagates and — as in the Python code — the event
is never cleared.  Result: new state, effects, returned value or
exception. -/
def getOwnedGames (st : PluginState)
    (resolveResult : Except Exn (List (String × HumbleGame))) :
    PluginState × List Effect × Except Exn (List HumbleGame) :=
  let st1 := {st with gettingOwnedGames := true}
  match resolveResult with
  | .error e => (st1, [Effect.resolveCalled .fetch], .error e)
  | .ok owned =>
      ({st1 with ownedGames := owned, gettingOwnedGames := false},
       [Effect.resolveCalled .fetch], .ok (owned.map Prod.snd))

/-- Outcomes of the external calls `install_game` can make: the download
resolver (`self._download_resolver(game)`, which may raise) and the trove
signed-URL request (`self._api.get_trove_sign_url`). -/
structure InstallEnv where
  chosenDownload : HumbleGame → Except Exn String
  troveSignUrl : String → String → Except Exn String

/-- The `try` body of `install_game` together with the generic
`except Exception` handler: every exception is caught and reported with
the looked-up game attached (still `None` when the lookup itself
failed). -/
def installGameBody (env : InstallEnv) (st : PluginState)
    (gameId : String) : List Effect :=
  match lookup gameId st.ownedGames with
  | none => [Effect.reportProblem (.gameCtx none)]
  | some g =>
    match g with
    | .key _ humanName keyTypeHumanName keyVal =>
        [Effect.runKeysGui humanName keyTypeHumanName keyVal]
    | .subproduct _ =>
        match env.chosenDownload g with
        | .error _ => [Effect.reportProblem (.gameCtx (some g))]
        | .ok web => [Effect.openUrl web]
    | .trove machineName =>
        match env.chosenDownload g with
        | .error _ => [Effect.reportProblem (.gameCtx (some g))]
        | .ok dl =>
          match env.troveSignUrl dl machineName with
          | .error .authenticationRequired =>
              [Effect.openUrl "https://www.humblebundle.com/monthly/subscriber"]
          | .error _ => [Effect.reportProblem (.gameCtx (some g))]
          | .ok url => [Effect.openUrl url]

/-- `HumbleBundlePlugin.install_game`: if the id is already in
`__under_instalation`, return at once; otherwise add it, run the guarded
body, and remove it again in `finally`. -/
def installGame (env : InstallEnv) (st : PluginState) (gameId : String) :
    PluginState × List Effect :=
  if st.underInstallation.contains gameId then
    (st, [])
  else
    let stMid := {st with underInstallation := gameId :: st.underInstallation}
    let effs := installGameBody env stMid gameId
    ({stMid with underInstallation := stMid.underInstallation.erase gameId},
     effs)

/-- `HumbleBundlePlugin._check_owned`: settings tuples (`astuple` of the
old and of the reloaded ownership filters) are compared; when they differ
the library is re-resolved under `CACHE` (result `newOwned`) and add and
remove notifications are emitted for the key-set difference. -/
def checkOwned (st : PluginState) (oldSettings newSettings : List String)
    (newOwned : List (String × HumbleGame)) : PluginState × List Effect :=
  if oldSettings = newSettings then
    (st, [])
  else
    let oldIds := keys st.ownedGames
    let newIds := keys newOwned
    let removed := oldIds.filter (fun i => i ∉ newIds)
    let added := newOwned.filter (fun p => p.1 ∉ oldIds)
    ({st with ownedGames := newOwned},
     Effect.resolveCalled .cache ::
       (removed.map Effect.removeGame ++
        added.map (fun p => Effect.addGame p.1 p.2)))

/-- `HumbleBundlePlugin._check_statuses`: walk a frozen list of local
games; for each, emit a status notification exactly when the observed
state differs from the cached one, then update the cache. -/
def checkStatuses (locals : List LocalHumbleGame)
    (cache : List (String × GameState)) :
    List Effect × List (String × GameState) :=
  match locals with
  | [] => ([], cache)
  | g :: rest =>
    if lookup g.id cache = some g.state then
      checkStatuses rest cache
    else
      let next := checkStatuses rest (setKey g.id g.state cache)
      (Effect.updateLocalGameStatus g.id g.state :: next.1, next.2)

/-- Several consecutive `_check_statuses` cycles observing one game id,
whose live state at cycle `k` is `obs[k]`; the game-state cache threads
through the cycles. -/
def runStatusCycles (id : String) (obs : List GameState)
    (cache : List (String × GameState)) :
    List Effect × List (String × GameState) :=
  match obs with
  | [] => ([], cache)
  | s :: rest =>
    let step := checkStatuses [⟨id, s⟩] cache
    let next := runStatusCycles id rest step.2
    (step.1 ++ next.1, next.2)

/-- `HumbleBundlePlugin.tick`: for each slot, spawn a fresh task exactly
when the previous one is done — the ownership slot additionally requires
that no foreground `get_owned_games` call is in progress.  A spawned
task's slot becomes not-done (running). -/
def tick (st : PluginState) : PluginState × List TaskSpawn :=
  let spawnOwned := st.checkOwnedDone && !st.gettingOwnedGames
  let spawnStatuses := st.checkStatusesDone
  let spawnInstalled := st.checkInstalledDone
  ({st with
      checkOwnedDone := if spawnOwned then false else st.checkOwnedDone,
      checkStatusesDone := if spawnStatuses then false else st.checkStatusesDone,
      checkInstalledDone := if spawnInstalled then false else st.checkInstalledDone},
   (if spawnOwned then [TaskSpawn.owned] else []) ++
   (if spawnStatuses then [TaskSpawn.statuses] else []) ++
   (if spawnInstalled then [TaskSpawn.installed] else []))

/-- `n` consecutive `tick` calls with no intervening task completion,
collecting every task they spawn. -/
def iterateTickSpawns (n : Nat) (st : PluginState) :
    PluginState × List TaskSpawn :=
  match n with
  | 0 => (st, [])
  | n + 1 =>
    let first := tick st
    let rest := iterateTickSpawns n first.1
    (rest.1, first.2 ++ rest.2)

/-! Helper lemmas about the association-map operations. -/

theorem lookup_setKey_self {α : Type} (k : String) (v : α)
    (l : List (String × α)) : lookup k (setKey k v l) = some v := by
  simp [lookup, setKey]

theorem lookup_filter_ne {α : Type} {k k' : String}
    (l : List (String × α)) (h : k' ≠ k) :
    lookup k (l.filter (fun p => p.1 ≠ k')) = lookup k l := by
  induction l with
  | nil => rfl
  | cons p rest ih =>
    by_cases hk : p.1 = k'
    · rw [List.filter_cons_of_neg (by simp [hk]), ih]
      have hp : p.1 ≠ k := fun hh => h (hk.symm.trans hh)
      simp [lookup, hp]
    · rw [List.filter_cons_of_pos (by simp [hk])]
      by_cases hp : p.1 = k
      · simp [lookup, hp]
      · simp only [lookup, if_neg hp]
        simpa [decide_not] using ih

theorem lookup_setKey_ne {α : Type} {k k' : String} (v : α)
    (l : List (String × α)) (h : k' ≠ k) :
    lookup k (setKey k' v l) = lookup k l := by
  simpa [setKey, lookup, h] using lookup_filter_ne l h

/-! Concrete sample data used by the witness theorems. -/

def sampleGame : HumbleGame := .subproduct "g1"

def sampleLocal : LocalHumbleGame := ⟨"g1", .installed⟩

def sampleState : PluginState where
  ownedGames := [("g1", sampleGame)]
  localGames := [("g1", sampleLocal)]
  cachedGameStates := []
  gettingOwnedGames := false
  checkOwnedDone := true
  checkStatusesDone := true
  checkInstalledDone := true
  underInstallation := []
  persistentCache := []

/-- Claim C8: `_save_cache` stores a string value unchanged and the
`json.dumps` serialization of any non-string value, and invokes
`push_cache` immediately after every write. -/
theorem saveCache_spec (dumps : Nat → String) (st : PluginState)
    (key s : String) (x : Nat) :
    (saveCache dumps st key (.str s)).2 =
        [Effect.cacheSet key s, Effect.pushCache] ∧
    lookup key (saveCache dumps st key (.str s)).1.persistentCache =
        some s ∧
    (saveCache dumps st key (.nonStr x)).2 =
        [Effect.cacheSet key (dumps x), Effect.pushCache] ∧
    lookup key (saveCache dumps st key (.nonStr x)).1.persistentCache =
        some (dumps x) := by
  refine ⟨rfl, ?_, rfl, ?_⟩ <;> simp [saveCache, lookup_setKey_self]

/-- Claim C7: for an id absent from `_local_games`, `launch_game` and
`uninstall_game` report the failed lookup with the full local-games map
attached and perform no `run` or `uninstall`; for a present id they invoke
the corresponding capability. -/
theorem launch_uninstall_spec (st : PluginState) (gameId : String) :
    (lookup gameId st.localGames = none →
        launchGame st gameId =
          [Effect.reportProblem (.localGamesCtx st.localGames)] ∧
        uninstallGame st gameId =
          [Effect.reportProblem (.localGamesCtx st.localGames)]) ∧
    (∀ g, lookup gameId st.localGames = some g →
        launchGame st gameId = [Effect.runGame gameId] ∧
        uninstallGame st gameId = [Effect.uninstallGame gameId]) := by
  constructor
  · intro h
    exact ⟨by simp [launchGame, h], by simp [uninstallGame, h]⟩
  · intro g h
    exact ⟨by simp [launchGame, h], by simp [uninstallGame, h]⟩

/-- Witness for C7: a missing id is reported with the map attached, a
present id is run and uninstalled. -/
theorem launch_uninstall_spec_witness :
    (launchGame sampleState "missing" =
        [Effect.reportProblem (.localGamesCtx sampleState.localGames)] ∧
     uninstallGame sampleState "missing" =
        [Effect.reportProblem (.localGamesCtx sampleState.localGames)]) ∧
    (launchGame sampleState "g1" = [Effect.runGame "g1"] ∧
     uninstallGame sampleState "g1" = [Effect.uninstallGame "g1"]) :=
  ⟨(launch_uninstall_spec sampleState "missing").1 (by decide),
   (launch_uninstall_spec sampleState "g1").2 sampleLocal (by decide)⟩

/-- Claim C6: when the external tracker's `refresh()` raises inside
`get_local_games`, the exception is reported and the call returns an
empty list, leaving the state untouched and propagating nothing. -/
theorem getLocalGames_refresh_error (st : PluginState)
    (found : List LocalHumbleGame) (h : st.ownedGames.isEmpty = false) :
    getLocalGames st true false found =
      (st, [Effect.refreshCalled, Effect.reportProblem .noCtx], []) := by
  simp [getLocalGames, h]

/-- Witness for C6. -/
theorem getLocalGames_refresh_error_witness :
    getLocalGames sampleState true false [sampleLocal] =
      (sampleState, [Effect.refreshCalled, Effect.reportProblem .noCtx],
       []) :=
  getLocalGames_refresh_error sampleState [sampleLocal] (by decide)

/-- Claim C10: with an empty owned-games mapping, or with no install
tracker configured, `get_local_games` returns `[]` at once — no refresh,
no enumeration, no state change. -/
theorem getLocalGames_empty_owned (st : PluginState)
    (hasAppFinder refreshOk : Bool) (found : List LocalHumbleGame) :
    (st.ownedGames = [] →
        getLocalGames st hasAppFinder refreshOk found = (st, [], [])) ∧
    getLocalGames st false refreshOk found = (st, [], []) := by
  constructor
  · intro h
    simp [getLocalGames, h]
  · simp [getLocalGames]

/-- Witness for C10: the startup state has no owned games, and the call
is a no-op on it. -/
theorem getLocalGames_empty_owned_witness :
    getLocalGames {sampleState with ownedGames := []} true true
        [sampleLocal] = ({sampleState with ownedGames := []}, [], []) :=
  (getLocalGames_empty_owned {sampleState with ownedGames := []} true true
      [sampleLocal]).1 rfl

/-- Environment whose external calls all succeed. -/
def sampleEnv : InstallEnv where
  chosenDownload := fun _ => .ok "dl"
  troveSignUrl := fun _ _ => .ok "signed"

/-- Claim C3: `install_game` on an id already in `__under_instalation` is
a silent no-op; a call that proceeds holds the id for the whole dispatch
(a concurrent call on the in-flight state is the same no-op) and the set
the `finally` clause leaves behind equals the initial one for every
outcome of the external calls, raising ones included. -/
theorem installGame_in_flight_spec (env : InstallEnv) (st : PluginState)
    (gameId : String) :
    (gameId ∈ st.underInstallation →
        installGame env st gameId = (st, [])) ∧
    (∀ env', installGame env'
        {st with underInstallation := gameId :: st.underInstallation}
        gameId =
        ({st with underInstallation := gameId :: st.underInstallation},
         [])) ∧
    (installGame env st gameId).1.underInstallation =
        st.underInstallation := by
  refine ⟨?_, ?_, ?_⟩
  · intro h
    simp [installGame, h]
  · intro env'
    simp [installGame]
  · by_cases h : gameId ∈ st.underInstallation
    · simp [installGame, h]
    · simp [installGame, h, List.erase_cons_head]

/-- Witness for C3: with `g1` already in flight, the call is a no-op. -/
theorem installGame_in_flight_spec_witness :
    installGame sampleEnv
        {sampleState with underInstallation := ["g1"]} "g1" =
      ({sampleState with underInstallation := ["g1"]}, []) :=
  (installGame_in_flight_spec sampleEnv
      {sampleState with underInstallation := ["g1"]} "g1").1 (by decide)

/-- Claim C5: dispatching a `TroveGame` whose signed-URL request fails
with `AuthenticationRequired` opens the subscription-management page and
returns normally; on success the signed URL itself is opened. -/
theorem installGame_trove_spec (env : InstallEnv) (st : PluginState)
    (gameId machineName dl : String)
    (hflight : gameId ∉ st.underInstallation)
    (hlook : lookup gameId st.ownedGames = some (.trove machineName))
    (hdl : env.chosenDownload (.trove machineName) = .ok dl) :
    (env.troveSignUrl dl machineName = .error .authenticationRequired →
        installGame env st gameId =
          (st, [Effect.openUrl
                  "https://www.humblebundle.com/monthly/subscriber"])) ∧
    (∀ url, env.troveSignUrl dl machineName = .ok url →
        installGame env st gameId = (st, [Effect.openUrl url])) := by
  constructor
  · intro hsign
    simp [installGame, installGameBody, hflight, hlook, hdl, hsign,
      List.erase_cons_head]
  · intro url hsign
    simp [installGame, installGameBody, hflight, hlook, hdl, hsign,
      List.erase_cons_head]

/-- State owning a single trove game. -/
def troveState : PluginState :=
  {sampleState with ownedGames := [("t1", .trove "t1")]}

/-- Environment whose signed-URL request reports a lapsed entitlement. -/
def troveEnvLapsed : InstallEnv where
  chosenDownload := fun _ => .ok "dl"
  troveSignUrl := fun _ _ => .error .authenticationRequired

/-- Witness for C5: the lapsed entitlement opens the subscription page,
the successful request opens the signed URL. -/
theorem installGame_trove_spec_witness :
    installGame troveEnvLapsed troveState "t1" =
      (troveState,
       [Effect.openUrl "https://www.humblebundle.com/monthly/subscriber"]) ∧
    installGame sampleEnv troveState "t1" =
      (troveState, [Effect.openUrl "signed"]) :=
  ⟨(installGame_trove_spec troveEnvLapsed troveState "t1" "t1" "dl"
      (by decide) (by decide) rfl).1 rfl,
   (installGame_trove_spec sampleEnv troveState "t1" "t1" "dl"
      (by decide) (by decide) rfl).2 "signed" rfl⟩

/-! Helper lemmas about `tick`. -/

theorem tick_gettingOwnedGames (st : PluginState) :
    (tick st).1.gettingOwnedGames = st.gettingOwnedGames := by
  simp [tick]

theorem tick_count_owned (st : PluginState) :
    List.count TaskSpawn.owned (tick st).2 =
      if st.checkOwnedDone && !st.gettingOwnedGames then 1 else 0 := by
  cases h1 : st.checkOwnedDone <;> cases h2 : st.gettingOwnedGames <;>
    cases h3 : st.checkStatusesDone <;> cases h4 : st.checkInstalledDone <;>
      simp [tick, h1, h2, h3, h4]

theorem tick_count_owned_of_getting (st : PluginState)
    (h : st.gettingOwnedGames = true) :
    List.count TaskSpawn.owned (tick st).2 = 0 := by
  rw [tick_count_owned, h]
  simp

theorem iterateTickSpawns_no_owned (n : Nat) (st : PluginState)
    (h : st.gettingOwnedGames = true) :
    List.count TaskSpawn.owned (iterateTickSpawns n st).2 = 0 ∧
    (iterateTickSpawns n st).1.gettingOwnedGames = true := by
  induction n generalizing st with
  | zero => exact ⟨rfl, h⟩
  | succ n ih =>
    have hg : (tick st).1.gettingOwnedGames = true :=
      (tick_gettingOwnedGames st).trans h
    have hrest := ih (tick st).1 hg
    refine ⟨?_, hrest.2⟩
    simp [iterateTickSpawns, List.count_append,
      tick_count_owned_of_getting st h, hrest.1]

/-- Claim C4: each `tick` spawns a task for a slot exactly when that slot
is done — the ownership slot additionally only when no foreground
`get_owned_games` call is in progress; a spawned slot becomes running, and
an immediately following `tick` (with no completion in between) spawns
nothing for it. -/
theorem tick_spec (st : PluginState) :
    (List.count TaskSpawn.owned (tick st).2 =
        if st.checkOwnedDone && !st.gettingOwnedGames then 1 else 0) ∧
    (List.count TaskSpawn.statuses (tick st).2 =
        if st.checkStatusesDone then 1 else 0) ∧
    (List.count TaskSpawn.installed (tick st).2 =
        if st.checkInstalledDone then 1 else 0) ∧
    ((tick st).1.checkOwnedDone =
        (st.checkOwnedDone && st.gettingOwnedGames)) ∧
    ((tick st).1.checkStatusesDone = false) ∧
    ((tick st).1.checkInstalledDone = false) ∧
    (List.count TaskSpawn.owned (tick (tick st).1).2 = 0) ∧
    (List.count TaskSpawn.statuses (tick (tick st).1).2 = 0) ∧
    (List.count TaskSpawn.installed (tick (tick st).1).2 = 0) := by
  cases h1 : st.checkOwnedDone <;> cases h2 : st.gettingOwnedGames <;>
    cases h3 : st.checkStatusesDone <;> cases h4 : st.checkInstalledDone <;>
      simp [tick, h1, h2, h3, h4]

/-- Claim C9: when the `FETCH` resolve inside `get_owned_games` raises,
the `_getting_owned_games` event stays set, and however many ticks follow,
the ownership-refresh task is never spawned again. -/
theorem getOwnedGames_error_blocks_refresh (st : PluginState) (e : Exn)
    (n : Nat) :
    (getOwnedGames st (.error e)).1.gettingOwnedGames = true ∧
    List.count TaskSpawn.owned
        (iterateTickSpawns n (getOwnedGames st (.error e)).1).2 = 0 := by
  have h1 : (getOwnedGames st (.error e)).1.gettingOwnedGames = true := rfl
  exact ⟨h1, (iterateTickSpawns_no_owned n _ h1).1⟩

/-! Helper lemmas about `_check_statuses`. -/

theorem checkStatuses_mem_id (locals : List LocalHumbleGame)
    (cache : List (String × GameState)) (id : String) (s : GameState)
    (hm : Effect.updateLocalGameStatus id s ∈ (checkStatuses locals cache).1) :
    id ∈ locals.map LocalHumbleGame.id := by
  induction locals generalizing cache with
  | nil => simp [checkStatuses] at hm
  | cons g rest ih =>
    by_cases hc : lookup g.id cache = some g.state
    · simp only [checkStatuses, if_pos hc] at hm
      exact List.mem_cons_of_mem _ (ih cache hm)
    · simp only [checkStatuses, if_neg hc, List.mem_cons] at hm
      rcases hm with heq | hm
      · obtain ⟨h1, _⟩ := Effect.updateLocalGameStatus.inj heq
        simp [h1]
      · exact List.mem_cons_of_mem _ (ih _ hm)

theorem checkStatuses_lookup_not_mem (locals : List LocalHumbleGame)
    (cache : List (String × GameState)) (id : String)
    (h : id ∉ locals.map LocalHumbleGame.id) :
    lookup id (checkStatuses locals cache).2 = lookup id cache := by
  induction locals generalizing cache with
  | nil => rfl
  | cons g rest ih =>
    have hne : g.id ≠ id := fun hh => h (by simp [hh])
    have hrest : id ∉ rest.map LocalHumbleGame.id := fun hh =>
      h (List.mem_cons_of_mem _ hh)
    by_cases hc : lookup g.id cache = some g.state
    · simp only [checkStatuses, if_pos hc]
      exact ih _ hrest
    · simp only [checkStatuses, if_neg hc]
      rw [ih _ hrest]
      exact lookup_setKey_ne _ _ hne

theorem checkStatuses_game_spec (locals : List LocalHumbleGame)
    (cache : List (String × GameState))
    (hnodup : (locals.map LocalHumbleGame.id).Nodup) :
    ∀ g ∈ locals,
      (Effect.updateLocalGameStatus g.id g.state ∈
          (checkStatuses locals cache).1 ↔
        lookup g.id cache ≠ some g.state) ∧
      lookup g.id (checkStatuses locals cache).2 = some g.state := by
  induction locals generalizing cache with
  | nil => intro g hg; cases hg
  | cons h0 rest ih =>
    rw [List.map_cons] at hnodup
    obtain ⟨hhead, hrest⟩ := List.nodup_cons.mp hnodup
    intro g hg
    rcases List.mem_cons.mp hg with rfl | hgr
    · by_cases hc : lookup g.id cache = some g.state
      · refine ⟨⟨fun hm => ?_, fun hd => absurd hc hd⟩, ?_⟩
        · simp only [checkStatuses, if_pos hc] at hm
          exact absurd (checkStatuses_mem_id rest cache _ _ hm) hhead
        · simp only [checkStatuses, if_pos hc]
          rw [checkStatuses_lookup_not_mem rest cache _ hhead]
          exact hc
      · refine ⟨⟨fun _ => hc, fun _ => ?_⟩, ?_⟩
        · simp [checkStatuses, if_neg hc]
        · simp only [checkStatuses, if_neg hc]
          rw [checkStatuses_lookup_not_mem rest _ _ hhead]
          exact lookup_setKey_self _ _ _
    · have hgne : g.id ≠ h0.id := by
        intro hh
        exact hhead (hh ▸ List.mem_map_of_mem LocalHumbleGame.id hgr)
      by_cases hc : lookup h0.id cache = some h0.state
      · simpa only [checkStatuses, if_pos hc] using ih cache hrest g hgr
      · have hih := ih (setKey h0.id h0.state cache) hrest g hgr
        rw [lookup_setKey_ne _ _ (Ne.symm hgne)] at hih
        simp only [checkStatuses, if_neg hc, List.mem_cons]
        refine ⟨?_, hih.2⟩
        rw [← hih.1]
        constructor
        · rintro (heq | hm)
          · exact absurd (Effect.updateLocalGameStatus.inj heq).1 hgne
          · exact hm
        · exact fun hm => Or.inr hm

/-- Claim C2: in every `_check_statuses` cycle over local games with
distinct ids, a status notification for a game is emitted exactly when its
observed state differs from the cached value (a missing entry counts as
different), after which the cache holds the observed state; consecutive
repeats are suppressed but every transition is forwarded, so observations
`[installed, installed, running, running, installed]` of one id yield
exactly the notifications `installed`, `running`, `installed`. -/
theorem checkStatuses_spec (locals : List LocalHumbleGame)
    (cache : List (String × GameState))
    (hnodup : (locals.map LocalHumbleGame.id).Nodup) :
    (∀ g ∈ locals,
      (Effect.updateLocalGameStatus g.id g.state ∈
          (checkStatuses locals cache).1 ↔
        lookup g.id cache ≠ some g.state) ∧
      lookup g.id (checkStatuses locals cache).2 = some g.state) ∧
    (runStatusCycles "x"
        [.installed, .installed, .running, .running, .installed] []).1 =
      [Effect.updateLocalGameStatus "x" .installed,
       Effect.updateLocalGameStatus "x" .running,
       Effect.updateLocalGameStatus "x" .installed] :=
  ⟨checkStatuses_game_spec locals cache hnodup, by decide⟩

/-- Witness for C2: one observed game whose state changed is notified and
cached. -/
theorem checkStatuses_spec_witness :
    (Effect.updateLocalGameStatus "g1" .running ∈
        (checkStatuses [⟨"g1", .running⟩] [("g1", .installed)]).1) ∧
    lookup "g1" (checkStatuses [⟨"g1", .running⟩] [("g1", .installed)]).2 =
      some .running := by
  have h := (checkStatuses_spec [⟨"g1", .running⟩] [("g1", .installed)]
      (by decide)).1 ⟨"g1", .running⟩ (by decide)
  exact ⟨h.1.mpr (by decide), h.2⟩

/-! Helper lemmas for counting notifications emitted by `_check_owned`. -/

theorem removeGame_injective : Function.Injective Effect.removeGame := by
  intro a b h
  injection h

theorem addGamePair_injective :
    Function.Injective (fun p : String × HumbleGame =>
      Effect.addGame p.1 p.2) := by
  intro a b h
  obtain ⟨h1, h2⟩ := Effect.addGame.inj h
  exact Prod.ext h1 h2

theorem count_removeGame_map (l : List String) (i : String) :
    List.count (Effect.removeGame i) (l.map Effect.removeGame) =
      List.count i l :=
  List.count_map_of_injective l _ removeGame_injective i

theorem count_addGame_map (l : List (String × HumbleGame)) (i : String)
    (g : HumbleGame) :
    List.count (Effect.addGame i g)
        (l.map (fun p => Effect.addGame p.1 p.2)) =
      List.count (i, g) l := by
  induction l with
  | nil => rfl
  | cons p rest ih =>
    rw [List.map_cons, List.count_cons, List.count_cons, ih]
    by_cases hp : p = (i, g)
    · subst hp
      simp
    · have h1 : Effect.addGame p.1 p.2 ≠ Effect.addGame i g := by
        intro hh
        obtain ⟨a, b⟩ := Effect.addGame.inj hh
        exact hp (Prod.ext a b)
      simp [hp, h1]

theorem count_eq_one_of_mem_nodup {α : Type} [BEq α] [LawfulBEq α]
    {x : α} {l : List α} (hn : l.Nodup) (hm : x ∈ l) :
    List.count x l = 1 := by
  induction l with
  | nil => cases hm
  | cons a rest ih =>
    obtain ⟨hna, hnr⟩ := List.nodup_cons.mp hn
    rw [List.count_cons]
    rcases List.mem_cons.mp hm with rfl | hmr
    · rw [List.count_eq_zero_of_not_mem hna]
      simp
    · have hax : ¬(a == x) = true := by
        intro hb
        exact hna ((eq_of_beq hb) ▸ hmr)
      rw [ih hnr hmr]
      simp [hax]

theorem count_removeGame_in_addMap (l : List (String × HumbleGame))
    (i : String) :
    List.count (Effect.removeGame i)
        (l.map (fun p => Effect.addGame p.1 p.2)) = 0 :=
  List.count_eq_zero.mpr (by simp)

theorem count_addGame_in_removeMap (l : List String) (i : String)
    (g : HumbleGame) :
    List.count (Effect.addGame i g) (l.map Effect.removeGame) = 0 :=
  List.count_eq_zero.mpr (by simp)

theorem count_resolve_in_removeMap (l : List String) (s : Strategy) :
    List.count (Effect.resolveCalled s) (l.map Effect.removeGame) = 0 :=
  List.count_eq_zero.mpr (by simp)

theorem count_resolve_in_addMap (l : List (String × HumbleGame))
    (s : Strategy) :
    List.count (Effect.resolveCalled s)
        (l.map (fun p => Effect.addGame p.1 p.2)) = 0 :=
  List.count_eq_zero.mpr (by simp)

/-- Claim C1: when the reloaded ownership filters equal the last-seen
snapshot, `_check_owned` resolves nothing and notifies nothing; when they
differ, it re-resolves under `CACHE` and emits exactly one removal per id
in `oldIds − newIds` and exactly one addition, carrying the full game
record, per id in `newIds − oldIds`, and nothing for ids in both. -/
theorem checkOwned_spec (st : PluginState)
    (oldSettings newSettings : List String)
    (newOwned : List (String × HumbleGame))
    (hOld : (keys st.ownedGames).Nodup)
    (hNew : (keys newOwned).Nodup) :
    (oldSettings = newSettings →
        checkOwned st oldSettings newSettings newOwned = (st, [])) ∧
    (oldSettings ≠ newSettings →
      (checkOwned st oldSettings newSettings newOwned).1.ownedGames =
          newOwned ∧
      List.count (Effect.resolveCalled .cache)
          (checkOwned st oldSettings newSettings newOwned).2 = 1 ∧
      (∀ i, List.count (Effect.removeGame i)
          (checkOwned st oldSettings newSettings newOwned).2 =
        if i ∈ keys st.ownedGames ∧ i ∉ keys newOwned then 1 else 0) ∧
      (∀ i g, List.count (Effect.addGame i g)
          (checkOwned st oldSettings newSettings newOwned).2 =
        if (i, g) ∈ newOwned ∧ i ∉ keys st.ownedGames then 1 else 0)) := by
  constructor
  · intro h
    simp [checkOwned, h]
  · intro h
    refine ⟨by simp [checkOwned, h], ?_, ?_, ?_⟩
    · simp only [checkOwned, if_neg h]
      rw [List.count_cons, List.count_append, count_resolve_in_removeMap,
        count_resolve_in_addMap]
      simp
    · intro i
      simp only [checkOwned, if_neg h]
      rw [List.count_cons, List.count_append, count_removeGame_map,
        count_removeGame_in_addMap]
      by_cases h1 : i ∈ keys newOwned
      · have hnr : i ∉ (keys st.ownedGames).filter
            (fun j => j ∉ keys newOwned) := by
          simp [List.mem_filter, h1]
        rw [List.count_eq_zero_of_not_mem hnr]
        simp [h1]
      · by_cases h2 : i ∈ keys st.ownedGames
        · rw [List.count_filter (by simpa using h1),
            List.count_eq_one_of_mem hOld h2]
          simp [h1, h2]
        · have hnr : i ∉ (keys st.ownedGames).filter
              (fun j => j ∉ keys newOwned) :=
            fun hm => h2 (List.mem_of_mem_filter hm)
          rw [List.count_eq_zero_of_not_mem hnr]
          simp [h2]
    · intro i g
      have hpairs : newOwned.Nodup :=
        List.Nodup.of_map Prod.fst (by simpa [keys] using hNew)
      simp only [checkOwned, if_neg h]
      rw [List.count_cons, List.count_append, count_addGame_map,
        count_addGame_in_removeMap]
      by_cases h1 : (i, g) ∈ newOwned
      · by_cases h2 : i ∈ keys st.ownedGames
        · have hng : (i, g) ∉ newOwned.filter
              (fun p => p.1 ∉ keys st.ownedGames) := by
            simp [List.mem_filter, h2]
          rw [List.count_eq_zero_of_not_mem hng]
          simp [h1, h2]
        · rw [List.count_filter (by simpa using h2),
            count_eq_one_of_mem_nodup hpairs h1]
          simp [h1, h2]
      · have hng : (i, g) ∉ newOwned.filter
            (fun p => p.1 ∉ keys st.ownedGames) :=
          fun hm => h1 (List.mem_of_mem_filter hm)
        rw [List.count_eq_zero_of_not_mem hng]
        simp [h1]

/-- Witness for C1: old owned ids `a, b, c` against new owned ids
`b, c, d` give exactly one removal for `a`, one addition for `d`, and no
notification for `b`. -/
theorem checkOwned_spec_witness :
    List.count (Effect.removeGame "a")
        (checkOwned {sampleState with ownedGames :=
            [("a", .subproduct "a"), ("b", .subproduct "b"),
             ("c", .subproduct "c")]} ["old"] ["new"]
          [("b", .subproduct "b"), ("c", .subproduct "c"),
           ("d", .subproduct "d")]).2 = 1 ∧
    List.count (Effect.addGame "d" (.subproduct "d"))
        (checkOwned {sampleState with ownedGames :=
            [("a", .subproduct "a"), ("b", .subproduct "b"),
             ("c", .subproduct "c")]} ["old"] ["new"]
          [("b", .subproduct "b"), ("c", .subproduct "c"),
           ("d", .subproduct "d")]).2 = 1 ∧
    List.count (Effect.removeGame "b")
        (checkOwned {sampleState with ownedGames :=
            [("a", .subproduct "a"), ("b", .subproduct "b"),
             ("c", .subproduct "c")]} ["old"] ["new"]
          [("b", .subproduct "b"), ("c", .subproduct "c"),
           ("d", .subproduct "d")]).2 = 0 := by
  have h := (checkOwned_spec {sampleState with ownedGames :=
      [("a", .subproduct "a"), ("b", .subproduct "b"),
       ("c", .subproduct "c")]} ["old"] ["new"]
      [("b", .subproduct "b"), ("c", .subproduct "c"),
       ("d", .subproduct "d")] (by decide) (by decide)).2 (by decide)
  refine ⟨?_, ?_, ?_⟩
  · rw [h.2.2.1 "a"]
    decide
  · rw [h.2.2.2 "d" (.subproduct "d")]
    decide
  · rw [h.2.2.1 "b"]
    decide

end HB
